import Mathlib

/-!
Verification of the python-crawler repository against its specification.

This file gives a shallow embedding of the parts of the repository that the
frozen claims are about:

* the content store (src/db/database.py) over sqlite, modelled as pure
  state-passing functions on a `DB` record whose tables are lists of rows;
* the parser helpers (src/crawler/parser.py): the static keyword list,
  eligibility checking and tag extraction;
* the crawl helpers (src/utils/helpers.py): page URL construction and the
  pure-python executive summarizer;
* the worker loops (src/main.py, src/utils/helpers.py): the enrichment
  (cleaner) per-article step, the article delivery (sender) per-cycle step,
  and the rule reconciliation job.

Python-level failures (exceptions) are modelled with `Except PyErr`; machine
state that an exception leaves untouched is returned unchanged.  Python
strings are modelled by `String`; `str.lower` is modelled on ASCII letters
(every string appearing in the claims is ASCII).
-/

/-- The python exceptions that the embedded code can raise. -/
inductive PyErr where
  | typeError
  | unboundLocalError
  | operationalError
  | attributeError
  deriving DecidableEq, Repr

/-! ## Python string primitives used by the source -/

/-- The characters python treats as whitespace for `str.strip` and the regex
class backslash-s, restricted to ASCII. -/
def pyIsSpace (c : Char) : Bool :=
  c = ' ' || c = '\t' || c = '\n' || c = '\r' || c = '\x0b' || c = '\x0c'

/-- Python `str.lower`, on ASCII letters (all keyword and tag strings in the
source are ASCII). -/
def pyLower (s : String) : String := ⟨s.data.map Char.toLower⟩

/-- Python `str.strip()` with no argument: drop leading and trailing
whitespace. -/
def pyStrip (s : String) : String :=
  ⟨((s.data.dropWhile pyIsSpace).reverse.dropWhile pyIsSpace).reverse⟩

/-- Python `str.rstrip(c)` for a single strip character: drop every trailing
occurrence of `c`. -/
def pyRstripChar (c : Char) (s : String) : String :=
  ⟨((s.data.reverse).dropWhile (fun d => d = c)).reverse⟩

/-- Helper for `pyContains`: does `n` occur as a contiguous sublist of `h`? -/
def occursAux (n : List Char) : List Char → Bool
  | [] => n.isEmpty
  | c :: t => n.isPrefixOf (c :: t) || occursAux n t

/-- Python substring test `needle in hay`. -/
def pyContains (needle hay : String) : Bool := occursAux needle.data hay.data

/-- Helper for `pySplit`. -/
def pySplitAux (sep : Char) : List Char → List Char → List String
  | acc, [] => [⟨acc.reverse⟩]
  | acc, c :: t =>
    if c = sep then ⟨acc.reverse⟩ :: pySplitAux sep [] t
    else pySplitAux sep (c :: acc) t

/-- Python `str.split(sep)` for a one-character separator: always returns at
least one part, and keeps empty parts. -/
def pySplit (sep : Char) (s : String) : List String := pySplitAux sep [] s.data

/-- Python `sep.join(parts)`. -/
def pyJoin (sep : String) : List String → String
  | [] => ""
  | [x] => x
  | x :: y :: t => x ++ sep ++ pyJoin sep (y :: t)

/-- Python `s.split("\n")[0]`: the text before the first newline. -/
def firstLine (s : String) : String := ⟨s.data.takeWhile (fun c => c ≠ '\n')⟩

/-- Python truthiness of an optional string: `x or ""`. -/
def pyOr (t : Option String) : String :=
  match t with
  | none => ""
  | some s => s

/-! ## Data model (src/db/models.py)

`Article`, `CleanArticle` and `RocketNews` are `collections.namedtuple`
types.  `CleanArticle` has TEN fields; constructing it requires a value for
every one of them (a missing field is a `TypeError` at call time), which is
modelled by `mkCleanArticleKw` below. -/

/-- namedtuple `Article` (5 fields). -/
structure Article where
  title : String
  url : String
  date : String
  description : String
  source : String
  deriving DecidableEq, Repr

/-- namedtuple `CleanArticle` (10 fields, as declared in src/db/models.py). -/
structure PyCleanArticle where
  title : String
  url : String
  date : String
  description : String
  summery : String
  second_summery : String
  translated_text : String
  second_translated_text : String
  source : String
  tags : String
  deriving DecidableEq, Repr

/-- namedtuple `RocketNews` (5 fields). -/
structure RocketNews where
  title : String
  item_list : String
  description : String
  date : String
  translated : String
  deriving DecidableEq, Repr

/-- The field names of the `CleanArticle` namedtuple, in declaration order. -/
def cleanArticleFields : List String :=
  ["title", "url", "date", "description", "summery", "second_summery",
   "translated_text", "second_translated_text", "source", "tags"]

/-- Value bound to field `n` in a keyword-argument list. -/
def kwLookup (provided : List (String × String)) (n : String) : String :=
  ((provided.find? (fun p => p.1 = n)).map (fun p => p.2)).getD ""

/-- Keyword construction of the `CleanArticle` namedtuple.  Python raises
`TypeError` when a required field is missing or an unknown keyword is
passed; otherwise every field is bound to the supplied value. -/
def mkCleanArticleKw (provided : List (String × String)) :
    Except PyErr PyCleanArticle :=
  if cleanArticleFields.all (fun n => provided.any (fun p => p.1 = n)) &&
     provided.all (fun p => p.1 ∈ cleanArticleFields) then
    .ok { title := kwLookup provided "title"
          url := kwLookup provided "url"
          date := kwLookup provided "date"
          description := kwLookup provided "description"
          summery := kwLookup provided "summery"
          second_summery := kwLookup provided "second_summery"
          translated_text := kwLookup provided "translated_text"
          second_translated_text := kwLookup provided "second_translated_text"
          source := kwLookup provided "source"
          tags := kwLookup provided "tags" }
  else .error .typeError

/-! ## Content store (src/db/database.py)

The sqlite schema of create_tables:
* articles_raw(title, url UNIQUE, date, description, source);
* articles_cleaned(title, url UNIQUE, date, description, summery,
  translated_text, source, tags, sent BOOL DEFAULT FALSE);
* match_rules(id AUTOINCREMENT, pattern, tag, enabled BOOL DEFAULT TRUE);
* rocket_launch(title, item_list, description, date, translated,
  sent BOOL DEFAULT FALSE) — note: NO uniqueness constraint on title.

Timestamps (created_at columns) play no role in any claim and are omitted.
Each table is a list of rows in insertion order; `match_rules` ids are
assigned from a monotonically increasing counter, so the stored order is
ascending id order. -/

structure RawRow where
  title : String
  url : String
  date : String
  description : String
  source : String
  deriving DecidableEq, Repr

structure CleanedRow where
  title : String
  url : String
  date : String
  description : String
  summery : String
  translated_text : String
  source : String
  tags : String
  sent : Bool
  deriving DecidableEq, Repr

structure RuleRow where
  id : Nat
  pattern : String
  tag : String
  enabled : Bool
  deriving DecidableEq, Repr

structure RocketRow where
  title : String
  item_list : String
  description : String
  date : String
  translated : String
  sent : Bool
  deriving DecidableEq, Repr

structure DB where
  articles_raw : List RawRow
  articles_cleaned : List CleanedRow
  match_rules : List RuleRow
  rocket_launch : List RocketRow
  nextRuleId : Nat
  deriving DecidableEq, Repr

/-- The empty store right after create_tables. -/
def DB.empty : DB := ⟨[], [], [], [], 1⟩

/-- db.database.raw_article_exists. -/
def raw_article_exists (url : String) (db : DB) : Bool :=
  db.articles_raw.any (fun r => r.url = url)

/-- db.database.insert_raw_article: INSERT into articles_raw; a duplicate
url violates the UNIQUE constraint, sqlite raises IntegrityError, and the
except-branch swallows it, leaving the store unchanged. -/
def insert_raw_article (a : Article) (db : DB) : DB :=
  if db.articles_raw.any (fun r => r.url = a.url) then db
  else { db with articles_raw := db.articles_raw ++
          [⟨a.title, a.url, a.date, a.description, a.source⟩] }

/-- db.database.insert_cleaned_article: INSERT of the 8 used fields of the
namedtuple; duplicate url swallowed exactly as for raw articles; the sent
column takes its sqlite default FALSE. -/
def insert_cleaned_article (a : PyCleanArticle) (db : DB) : DB :=
  if db.articles_cleaned.any (fun r => r.url = a.url) then db
  else { db with articles_cleaned := db.articles_cleaned ++
          [⟨a.title, a.url, a.date, a.description, a.summery,
            a.translated_text, a.source, a.tags, false⟩] }

/-- db.database.update_cleaned_articles: UPDATE articles_cleaned SET tags
WHERE url matches. -/
def update_cleaned_articles (tags url : String) (db : DB) : DB :=
  { db with articles_cleaned :=
      db.articles_cleaned.map fun r =>
        if r.url = url then { r with tags := tags } else r }

/-- db.database.mark_article_sent: UPDATE articles_cleaned SET sent = TRUE
WHERE url matches. -/
def mark_article_sent (url : String) (db : DB) : DB :=
  { db with articles_cleaned :=
      db.articles_cleaned.map fun r =>
        if r.url = url then { r with sent := true } else r }

/-- db.database.rules_all: SELECT id, pattern, tag, enabled FROM match_rules
ORDER BY id DESC.  Rows are stored in ascending id order, so this is the
reverse of the stored list. -/
def rules_all (db : DB) : List RuleRow := db.match_rules.reverse

/-- db.database.rules_create: INSERT with stripped pattern and tag; sqlite
assigns the next autoincrement id. -/
def rules_create (pattern tag : String) (enabled : Bool) (db : DB) : DB :=
  { db with
    match_rules := db.match_rules ++
      [⟨db.nextRuleId, pyStrip pattern, pyStrip tag, enabled⟩]
    nextRuleId := db.nextRuleId + 1 }

/-- db.database.rules_update: UPDATE by id with stripped pattern and tag. -/
def rules_update (rule_id : Nat) (pattern tag : String) (enabled : Bool)
    (db : DB) : DB :=
  { db with match_rules :=
      db.match_rules.map fun r =>
        if r.id = rule_id then
          { r with pattern := pyStrip pattern, tag := pyStrip tag,
                   enabled := enabled }
        else r }

/-- db.database.rules_delete: DELETE by id. -/
def rules_delete (rule_id : Nat) (db : DB) : DB :=
  { db with match_rules := db.match_rules.filter (fun r => r.id ≠ rule_id) }

/-- db.database.rocket_lunch_exists: SELECT by title. -/
def rocket_lunch_exists (title : String) (db : DB) : Bool :=
  db.rocket_launch.any (fun r => r.title = title)

/-- db.database.insert_rocket_lunch: plain INSERT into rocket_launch.  The
table has no uniqueness constraint on title (or anything else), so the
insert always appends a row, duplicate title or not. -/
def insert_rocket_lunch (n : RocketNews) (db : DB) : DB :=
  { db with rocket_launch := db.rocket_launch ++
      [⟨n.title, n.item_list, n.description, n.date, n.translated, false⟩] }

/-- db.database.get_not_send_rocket_news (read). -/
def get_not_send_rocket_news (db : DB) : List RocketRow :=
  db.rocket_launch.filter (fun r => r.sent = false)

/-- db.database.mark_rocket_news_sent: UPDATE rocket_launch SET sent = TRUE
WHERE title matches. -/
def mark_rocket_news_sent (title : String) (db : DB) : DB :=
  { db with rocket_launch :=
      db.rocket_launch.map fun r =>
        if r.title = title then { r with sent := true } else r }

/-! ## The store operations as a single step type

Every write operation exposed by src/db/database.py, for stating frame and
monotonicity properties over arbitrary operation sequences. -/

inductive Op where
  | insertRaw (a : Article)
  | insertCleaned (a : PyCleanArticle)
  | updateCleanedTags (tags url : String)
  | markArticleSent (url : String)
  | rulesCreate (pattern tag : String) (enabled : Bool)
  | rulesUpdate (rule_id : Nat) (pattern tag : String) (enabled : Bool)
  | rulesDelete (rule_id : Nat)
  | insertRocket (n : RocketNews)
  | markRocketSent (title : String)
  deriving Repr

def Op.apply : Op → DB → DB
  | .insertRaw a, db => insert_raw_article a db
  | .insertCleaned a, db => insert_cleaned_article a db
  | .updateCleanedTags tags url, db => update_cleaned_articles tags url db
  | .markArticleSent url, db => mark_article_sent url db
  | .rulesCreate p t e, db => rules_create p t e db
  | .rulesUpdate i p t e, db => rules_update i p t e db
  | .rulesDelete i, db => rules_delete i db
  | .insertRocket n, db => insert_rocket_lunch n db
  | .markRocketSent t, db => mark_rocket_news_sent t db

/-- Apply a sequence of store operations, first element first. -/
def applyOps (ops : List Op) (db : DB) : DB :=
  ops.foldl (fun s op => op.apply s) db

/-! ## Parser helpers (src/crawler/parser.py) -/

/-- The static keyword list KEYWORDS of src/crawler/parser.py. -/
def KEYWORDS : List String :=
  ["Israel", "Spy satellite", "Ofek series", "Orbit", "Classified tle",
   "Ofek 13", "Palmachim Airbase", "Mystery object into orbit",
   "Launch", "Satellite Launch Center", "Retrograde orbit", "Spies in space"]

/-- The keyword pool built by check_article: KEYWORDS followed by the
pattern of every enabled, non-empty rule of rules_all, in rules_all order
(appended unconditionally, duplicates allowed). -/
def checkKeywords (db : DB) : List String :=
  KEYWORDS ++ ((rules_all db).filterMap fun r =>
    if r.enabled && r.pattern ≠ "" then some r.pattern else none)

/-- crawler.parser.check_article: an article is eligible when its
description is non-empty and some keyword or enabled rule pattern occurs in
it as a case-insensitive substring. -/
def check_article (db : DB) (a : Article) : Bool :=
  if a.description = "" then false
  else (checkKeywords db).any fun kw =>
    pyContains (pyLower kw) (pyLower a.description)

/-- The keyword pool built by extract_tags: KEYWORDS, then the pattern of
every enabled non-empty rule of rules_all, appended only when not already
present. -/
def etKeywords (db : DB) : List String :=
  (rules_all db).foldl
    (fun acc r =>
      if ¬r.enabled ∨ r.pattern = "" then acc
      else if r.pattern ∈ acc then acc
      else acc ++ [r.pattern])
    KEYWORDS

/-- crawler.parser.extract_tags.  On empty text the source executes
`return tags` before the local variable `tags` has been assigned, which
raises UnboundLocalError; otherwise it returns the pool members that occur
in the text as case-insensitive substrings. -/
def extract_tags (db : DB) (text : String) : Except PyErr (List String) :=
  if text = "" then .error .unboundLocalError
  else .ok ((etKeywords db).filter fun kw =>
    pyContains (pyLower kw) (pyLower text))

/-! ## Page URL construction (src/utils/helpers.py, build_page_url) -/

/-- utils.helpers.build_page_url: page 0 or 1 returns the base unchanged;
any other page strips trailing slashes from the base and appends
"/page/N/". -/
def build_page_url (base : String) (page_num : Nat) : String :=
  if page_num = 0 ∨ page_num = 1 then base
  else pyRstripChar '/' base ++ "/page/" ++ toString page_num ++ "/"

/-! ## Article delivery worker (src/utils/helpers.py, sender_thread)

One pass of the sender loop body over the articles returned by the injected
getter.  The Eitaa post call is modelled by a boolean oracle `postOk`
(true: the HTTP POST returns, false: it raises); a raising post is caught
by the outer handler, which abandons the remaining articles until the next
cycle.  Title translation is modelled as a total function (its failures,
like post failures, abort the cycle and are outside the claims). -/

/-- The hash-tag rendering of a stored comma-joined tag string:
`" ".join(["#" + tag.strip() for tag in tags.split(",") if tag.strip()])`. -/
def renderTags (tags : String) : String :=
  pyJoin " " ((pySplit ',' tags).filterMap fun t =>
    if pyStrip t = "" then none else some ("#" ++ pyStrip t))

/-- The suppression test of sender_thread:
`tags.lower() == "#orbit" or tags.lower() == "#launch"`. -/
def senderBlocked (tags : String) : Bool :=
  pyLower (renderTags tags) = "#orbit" || pyLower (renderTags tags) = "#launch"

/-- The observable actions of one sender pass. -/
inductive SendEvent where
  | post (a : PyCleanArticle)
  | mark (url : String)
  deriving DecidableEq, Repr

/-- The message body assembled by sender_thread for one article. -/
def senderMessage (translateTitle : String → String) (a : PyCleanArticle) :
    String :=
  "عنوان: " ++ translateTitle a.title ++ "\n\n\nمتن: " ++ a.translated_text ++
  "\n\n" ++ renderTags a.tags ++ "\n" ++ a.url

/-- The events produced for a single article of the sender loop body:
articles without a translated body or tag string are skipped, suppressed
tag renderings are skipped, and otherwise the article is posted and, when
the post returns, marked sent. -/
def senderRowEvents (postOk : PyCleanArticle → Bool) (a : PyCleanArticle) :
    List SendEvent :=
  if a.translated_text = "" ∨ a.tags = "" then []
  else if senderBlocked a.tags then []
  else if postOk a then [.post a, .mark a.url]
  else [.post a]

/-- Did processing this article raise (post failure on a non-skipped row)? -/
def senderRowAborts (postOk : PyCleanArticle → Bool) (a : PyCleanArticle) :
    Bool :=
  ¬(a.translated_text = "" ∨ a.tags = "") && ¬senderBlocked a.tags && ¬postOk a

/-- The events of one full pass of the sender loop body: articles are
processed in order and a raising post abandons the rest of the pass. -/
def senderEvents (postOk : PyCleanArticle → Bool) :
    List PyCleanArticle → List SendEvent
  | [] => []
  | a :: rest =>
    senderRowEvents postOk a ++
      (if senderRowAborts postOk a then [] else senderEvents postOk rest)

/-- Replay the store effect of a pass: only mark events write, through
db.database.mark_article_sent. -/
def applySendEvents (events : List SendEvent) (db : DB) : DB :=
  events.foldl
    (fun s e => match e with
      | .post _ => s
      | .mark url => mark_article_sent url s)
    db

/-! ## Summarizer (src/utils/helpers.py; src/add_helper.py is identical in
all respects modelled here)

The public `summarize` entry point.  In the default executive style the
extractive MMR pool (`_mmr`, `_tfidf_matrix`, `_cosine_sparse`) is computed
into the local variable `base`, masked, and then never read again — the
emitted parts are built only from `_sent_tokenize` and `_pick_sentence` —
so the embedding omits that dead computation (it is pure and total).  The
"tech" style does feed the MMR selection into its output; that selection
ranks sentences by floating-point TF-IDF scores and is not modelled: the
embedded `summarize` returns `none` for the tech style.  No claim concerns
the tech style.  `_pick_sentence` scores are exact rationals in the source
up to floating-point rounding; they are modelled in `ℚ` (no claim depends
on a near-tie of two scores). -/

/-- One step of collapsing whitespace runs to single spaces
(`re.sub(r"\s+", " ", text)`).  The boolean records whether the previous
character was whitespace. -/
def collapseWsAux : Bool → List Char → List Char
  | _, [] => []
  | prevSpace, c :: t =>
    if pyIsSpace c then
      (if prevSpace then [] else [' ']) ++ collapseWsAux true t
    else c :: collapseWsAux false t

/-- `re.sub(r"\s+", " ", s)`: every maximal whitespace run becomes one
space. -/
def collapseWs (s : String) : String := ⟨collapseWsAux false s.data⟩

/-- `re.sub(r"\s{2,}", " ", s)`: whitespace runs of length at least two
become one space; a lone whitespace character is kept as it is.  The state
is an optional pending single whitespace character and a flag marking that
we are inside an already-collapsed run. -/
def collapseWs2Aux : Option Char → Bool → List Char → List Char
  | pending, _, [] => (match pending with | some c => [c] | none => [])
  | some c, _, d :: t =>
    if pyIsSpace d then ' ' :: collapseWs2Aux none true t
    else c :: d :: collapseWs2Aux none false t
  | none, true, d :: t =>
    if pyIsSpace d then collapseWs2Aux none true t
    else d :: collapseWs2Aux none false t
  | none, false, d :: t =>
    if pyIsSpace d then collapseWs2Aux (some d) false t
    else d :: collapseWs2Aux none false t

/-- `re.sub(r"\s{2,}", " ", s)`. -/
def collapseWs2 (s : String) : String := ⟨collapseWs2Aux none false s.data⟩

/-- Membership in the ASCII class [A-Z]. -/
def isUpperAZ (c : Char) : Bool := 'A' ≤ c && c ≤ 'Z'

/-- Membership in the ASCII class [a-z]. -/
def isLowerAZ (c : Char) : Bool := 'a' ≤ c && c ≤ 'z'

/-- The regex word class backslash-w restricted to ASCII:
letters, digits and underscore. -/
def isWordChar (c : Char) : Bool :=
  isUpperAZ c || isLowerAZ c || c.isDigit || c = '_'

/-- The lookahead class of the `_sent_tokenize` split pattern:
`[A-Z“\(—-]`. -/
def sentBoundaryStart (c : Char) : Bool :=
  isUpperAZ c || c = '“' || c = '(' || c = '—' || c = '-'

/-- Split a whitespace-normalised character list at the pattern
`(?<=[.!?])\s+(?=[A-Z“\(—-])`; after normalisation each whitespace run is a
single space, which the split consumes.  `prev` is the preceding character
(a space initially: the normalised, stripped text never starts with a
space). -/
def sentSplitAux (prev : Char) (acc : List Char) : List Char → List (List Char)
  | [] => [acc.reverse]
  | c :: t =>
    if c = ' ' && (prev = '.' || prev = '!' || prev = '?') &&
       (match t with | [] => false | d :: _ => sentBoundaryStart d) then
      acc.reverse :: sentSplitAux ' ' [] t
    else sentSplitAux c (c :: acc) t

/-- Python `str.isspace()`: non-empty and all whitespace. -/
def pyIsspaceStr (s : String) : Bool := s ≠ "" && s.data.all pyIsSpace

/-- utils.helpers._sent_tokenize: normalise whitespace, strip, return [] on
empty, else split at sentence boundaries, strip each part and drop empty or
all-space parts. -/
def sentTokenize (text : String) : List String :=
  let t := pyStrip (collapseWs text)
  if t = "" then []
  else (sentSplitAux ' ' [] t.data).filterMap fun l =>
    let p : String := ⟨l⟩
    if p ≠ "" && ¬pyIsspaceStr p then some (pyStrip p) else none

/-- Case-insensitive literal prefix match: when the lowered needle `k` is a
prefix of the lowered input, return the rest of the input. -/
def lowerPrefixRest : List Char → List Char → Option (List Char)
  | [], rest => some rest
  | _ :: _, [] => none
  | a :: k, c :: t => if c.toLower = a then lowerPrefixRest k t else none

/-- Is the position after a match a word boundary (end of input or a
non-word character)?  Used for keywords that end in a word character, as
every `_pick_sentence` keyword does. -/
def boundaryAfter : List Char → Bool
  | [] => true
  | c :: _ => ¬isWordChar c

/-- Scanner for `re.search(r"\b" + re.escape(w) + r"\b", s, re.I)` where `w`
starts and ends with a word character (true of every keyword passed by
`_format_exec`): `k` is the lowered keyword, `prev` the character before
the current position. -/
def wbSearchAux (k : List Char) : Option Char → List Char → Bool
  | prev, l =>
    ((match prev with | none => true | some p => ¬isWordChar p) &&
      (match lowerPrefixRest k l with
       | some rest => boundaryAfter rest
       | none => false)) ||
    (match l with
     | [] => false
     | c :: t => wbSearchAux k (some c) t)

/-- Whole-word, case-insensitive search of keyword `w` in sentence `s`. -/
def wbSearch (w s : String) : Bool :=
  wbSearchAux (w.data.map Char.toLower) none s.data

/-- utils.helpers._pick_sentence: among the sentences that contain at least
one of the keywords (whole-word, case-insensitive), pick the one with the
highest score `3k - 0.2·digits - len/300` (earliest wins ties); return ""
when no sentence matches. -/
def pickSentence (sents : List String) (keywords : List String) : String :=
  (sents.foldl
    (fun best s =>
      let k := (keywords.filter fun w => wbSearch w s).length
      if k = 0 then best
      else
        let numPenalty := (s.data.filter Char.isDigit).length
        let score : ℚ := 3 * k - (numPenalty : ℚ) / 5 - (s.length : ℚ) / 300
        if score > best.2 then (s, score) else best)
    ("", -(10 ^ 18 : ℚ))).1

/-! ### utils.helpers._simplify_exec

Six successive `re.sub` passes.  Each scanner walks the text left to right,
removes the leftmost match, and resumes after it, which is exactly the
semantics of `re.sub` with an empty replacement.  The scanners consume at
least one character per step and recurse on suffixes, so they take the
input length as fuel; the fuel never runs out on inputs of that length. -/

/-- Rest of the input after the first closing curly quote, if any. -/
def findCloseQuote : List Char → Option (List Char)
  | [] => none
  | c :: t => if c = '”' then some t else findCloseQuote t

/-- Pass 1: `re.sub(r"“[^”]+”", "", s)` — remove curly-quoted spans with a
non-empty interior. -/
def remQuotedF : Nat → List Char → List Char
  | 0, l => l
  | _ + 1, [] => []
  | n + 1, c :: t =>
    if c = '“' then
      match t with
      | d :: _ =>
        if d = '”' then c :: remQuotedF n t
        else
          match findCloseQuote t with
          | some rest => remQuotedF n rest
          | none => c :: remQuotedF n t
      | [] => [c]
    else c :: remQuotedF n t

/-- Rest of the input after the first closing parenthesis, if any. -/
def findCloseParen : List Char → Option (List Char)
  | [] => none
  | c :: t => if c = ')' then some t else findCloseParen t

/-- Pass 2: `re.sub(r"\([^)]*\)", "", s)` — remove parenthesised spans
(possibly empty interior). -/
def remParensF : Nat → List Char → List Char
  | 0, l => l
  | _ + 1, [] => []
  | n + 1, c :: t =>
    if c = '(' then
      match findCloseParen t with
      | some rest => remParensF n rest
      | none => c :: remParensF n t
    else c :: remParensF n t

/-- Attempt the name pattern `[A-Z][a-z]+\s+[A-Z][a-z]+\b` at the current
position (the leading `\b` is checked by the caller).  Greediness needs no
backtracking here: shortening `[a-z]+` or `\s+` always places a word
character, respectively a non-`[A-Z]` character, where the next component
must match.  On success, returns the rest of the input and the last matched
character. -/
def matchNameAt : List Char → Option (List Char × Char)
  | [] => none
  | c :: t =>
    if isUpperAZ c then
      let l1 := t.takeWhile isLowerAZ
      let r1 := t.dropWhile isLowerAZ
      if l1.isEmpty then none
      else
        let ws := r1.takeWhile pyIsSpace
        let r2 := r1.dropWhile pyIsSpace
        if ws.isEmpty then none
        else
          match r2 with
          | [] => none
          | d :: t2 =>
            if isUpperAZ d then
              let l2 := t2.takeWhile isLowerAZ
              let r3 := t2.dropWhile isLowerAZ
              if h : l2 = [] then none
              else if boundaryAfter r3 then some (r3, l2.getLast h)
              else none
            else none
    else none

/-- Pass 3: `re.sub(r"\b[A-Z][a-z]+\s+[A-Z][a-z]+\b", "", s)` — crude
"First Last" name removal.  `prev` is the character preceding the current
position in the original text (for the leading word boundary). -/
def remNamesF : Nat → Option Char → List Char → List Char
  | 0, _, l => l
  | _ + 1, _, [] => []
  | n + 1, prev, c :: t =>
    if (match prev with | none => true | some p => ¬isWordChar p) then
      match matchNameAt (c :: t) with
      | some (rest, lastChar) => remNamesF n (some lastChar) rest
      | none => c :: remNamesF n (some c) t
    else c :: remNamesF n (some c) t

/-- Case-insensitive literal "a.m." / "p.m." at the head of the input;
returns the rest on a match. -/
def matchAmPm : List Char → Option (List Char)
  | c1 :: c2 :: c3 :: c4 :: rest =>
    if (c1.toLower = 'a' || c1.toLower = 'p') && c2 = '.' &&
       c3.toLower = 'm' && c4 = '.' then some rest else none
  | _ => none

/-- Attempt `\d{1,2}(:\d{2})?\s*(a\.m\.|p\.m\.)` at the current position,
trying two digits first, then one (regex backtracking order).  The optional
colon group and the greedy `\s*` need no further backtracking: after fewer
spaces the next character is still not `a`/`p`, and after dropping the
colon group the next character is `:`. -/
def matchTimeDigits : List Char → Option (List Char)
  | l =>
    let afterColon : List Char → List Char := fun r =>
      match r with
      | ':' :: d1 :: d2 :: rr =>
        if d1.isDigit && d2.isDigit then rr else ':' :: d1 :: d2 :: rr
      | _ => r
    let after : List Char → Option (List Char) := fun r =>
      matchAmPm ((afterColon r).dropWhile pyIsSpace)
    match l with
    | d1 :: d2 :: rest =>
      if d1.isDigit then
        if d2.isDigit then
          match after rest with
          | some r => some r
          | none => after (d2 :: rest)
        else after (d2 :: rest)
      else none
    | [d1] => if d1.isDigit then after [] else none
    | [] => none

/-- Pass 4: `re.sub(r"\d{1,2}(:\d{2})?\s*(a\.m\.|p\.m\.)", "", s, re.I)` —
remove clock times. -/
def remTimesF : Nat → List Char → List Char
  | 0, l => l
  | _ + 1, [] => []
  | n + 1, c :: t =>
    match matchTimeDigits (c :: t) with
    | some rest => remTimesF n rest
    | none => c :: remTimesF n t

/-- Try `f` at `n`, then `n-1`, ..., then `0`; first success wins.  This is
the backtracking order of a greedy starred group. -/
def tryDown {α : Type} (n : Nat) (f : Nat → Option α) : Option α :=
  match n with
  | 0 => f 0
  | m + 1 => (f (m + 1)).orElse fun _ => tryDown m f

/-- The month alternatives of the source pattern, in source order. -/
def monthAlternatives : List String :=
  ["Jan", "Feb", "Mar", "Apr", "May", "Jun", "Jul", "Aug", "Sep", "Sept",
   "Oct", "Nov", "Dec"]

/-- Attempt the suffix `\w*\.*\s*\d{1,2}` after a month name, with the
greedy backtracking order of the regex engine (longest `\w*` first, then
longest `\.*`, then longest `\s*`, two digits preferred over one). -/
def matchMonthSuffix (r : List Char) : Option (List Char) :=
  tryDown (r.takeWhile isWordChar).length fun wl =>
    let r1 := r.drop wl
    tryDown (r1.takeWhile (fun c => c = '.')).length fun dl =>
      let r2 := r1.drop dl
      tryDown (r2.takeWhile pyIsSpace).length fun sl =>
        match r2.drop sl with
        | a :: b :: rr =>
          if a.isDigit then (if b.isDigit then some rr else some (b :: rr))
          else none
        | [a] => if a.isDigit then some [] else none
        | [] => none

/-- Attempt the whole month pattern at the current position: alternatives
in source order, each followed by the suffix. -/
def matchMonthAt (l : List Char) : Option (List Char) :=
  monthAlternatives.foldl
    (fun acc m => acc.orElse fun _ =>
      match lowerPrefixRest (m.data.map Char.toLower) l with
      | some r => matchMonthSuffix r
      | none => none)
    none

/-- Pass 5:
`re.sub(r"\b(?:Jan|...|Dec)\w*\.*\s*\d{1,2}", "", s, re.I)` — remove month
plus day-of-month fragments.  `prev` carries the preceding character for
the leading word boundary. -/
def remMonthsF : Nat → Option Char → List Char → List Char
  | 0, _, l => l
  | _ + 1, _, [] => []
  | n + 1, prev, c :: t =>
    if (match prev with | none => true | some p => ¬isWordChar p) then
      match matchMonthAt (c :: t) with
      | some rest => remMonthsF n (some '1') rest
      | none => c :: remMonthsF n (some c) t
    else c :: remMonthsF n (some c) t

/-- Pass 6: `re.sub(r"\d{4}", "", s)` — remove every run of four digits
(leftmost first, resuming after the removed run). -/
def rem4DigitsF : Nat → List Char → List Char
  | 0, l => l
  | _ + 1, [] => []
  | n + 1, c :: t =>
    match c :: t with
    | a :: b :: d :: e :: rest =>
      if a.isDigit && b.isDigit && d.isDigit && e.isDigit then
        rem4DigitsF n rest
      else c :: rem4DigitsF n t
    | _ => c :: rem4DigitsF n t

/-- utils.helpers._simplify_exec: the six removal passes, then collapse of
multi-whitespace runs, then strip.  The last matched character of the month
pattern is always a digit, hence the `some '1'` lookbehind after a month
match (only its word-character status matters). -/
def simplifyExec (s : String) : String :=
  let d0 := s.data
  let d1 := remQuotedF d0.length d0
  let d2 := remParensF d1.length d1
  let d3 := remNamesF d2.length none d2
  let d4 := remTimesF d3.length d3
  let d5 := remMonthsF d4.length none d4
  let d6 := rem4DigitsF d5.length d5
  pyStrip (collapseWs2 ⟨d6⟩)

/-- The fixed first part of every executive summary. -/
def purposeSentence : String :=
  "Purpose: validate astronaut escape systems so regular ISS crew rotations can begin."

/-- utils.helpers._format_exec.  The extractive base pool (`_mmr` plus
person masking) is computed by the source into a local that is never read,
so it does not appear here; `max_sentences`, `diversity` and `mask_persons`
only parameterise that dead computation. -/
def formatExec (text : String) (bullets : Bool) : String :=
  let all_sents := sentTokenize text
  let timing := pickSentence all_sents
    ["next week", "scheduled", "as soon as", "first half"]
  let boeing := pickSentence all_sents
    ["pad abort", "Starliner", "White Sands", "separate"]
  let spacex := pickSentence all_sents
    ["SuperDraco", "in-flight abort", "hotfire", "test-firing", "SpaceX"]
  let risk := pickSentence all_sents
    ["explosion", "investigation", "leaky valve", "check valve", "burst disk"]
  let milestones := pickSentence all_sents
    ["Orbital Test Flight", "uncrewed", "crew", "demo"]
  let why := pickSentence all_sents
    ["NASA tasked", "contracts", "Soyuz", "crew rotation"]
  let parts : List String :=
    [purposeSentence] ++
    (if timing ≠ "" then ["Timing: " ++ simplifyExec timing] else []) ++
    (if boeing ≠ "" then ["Boeing: " ++ simplifyExec boeing] else []) ++
    (if spacex ≠ "" then ["SpaceX: " ++ simplifyExec spacex] else []) ++
    (if risk ≠ "" then ["Risk & mitigation: " ++ simplifyExec risk] else []) ++
    (if milestones ≠ "" then ["Milestones: " ++ simplifyExec milestones] else []) ++
    (if why ≠ "" then ["Why it matters: " ++ simplifyExec why] else [])
  if bullets then
    pyJoin "\n" ((parts.filter fun p => p ≠ "").map fun p =>
      "• " ++ pyRstripChar '.' (pyStrip p) ++ ".")
  else
    pyJoin " " ((parts.filter fun p => p ≠ "").map fun p =>
      pyRstripChar '.' p ++ ".")

/-- utils.helpers._abstractive_polish.  The lazily loaded HF pipeline is an
external collaborator, modelled as an optional fallible function: absent
pipeline or a raising call returns the input unchanged; a successful call
returns the stripped, whitespace-collapsed pipeline output. -/
def abstractivePolish (pipe : Option (String → Except Unit String))
    (text : String) : String :=
  match pipe with
  | none => text
  | some f =>
    match f text with
    | .ok out => collapseWs2 (pyStrip out)
    | .error _ => text

/-- utils.helpers.summarize.  `text` is optional to model a python `None`
argument (`text or ""`).  An empty stripped text returns "" before any
style dispatch.  The executive (default) style is modelled fully; the
"tech" style feeds the floating-point MMR selection into its output and is
left unmodelled (`none`).  No claim concerns the tech style. -/
def summarize (pipe : Option (String → Except Unit String))
    (text : Option String) (style : String) (bullets abstractive : Bool) :
    Option String :=
  let t := pyStrip (pyOr text)
  if t = "" then some ""
  else if style = "tech" then none
  else
    let out := formatExec t bullets
    some (if abstractive then abstractivePolish pipe out else out)

/-! ## Enrichment worker (src/main.py, cleaner_thread)

The per-article body of the cleaner loop.  The summarizer handle may be
absent (`None`); `summarizer_func` and the translator are external
collaborators modelled as fallible functions.  The body mirrors the source
control flow:

* eligibility via check_article; a spacenews pre-trim to the first line;
* `summarized_text` is assigned ONLY inside `if summarizer:` — when the
  summarizer is `None` the local stays unbound (modelled as `Option`);
* the translation call sits in its own try/except: referencing the unbound
  local there raises NameError, which that except catches, degrading the
  field to "" (same as a translator failure);
* tag extraction (which itself raises on an empty trimmed description);
* the `CleanArticle(...)` construction evaluates its keyword arguments
  (raising NameError when `summarized_text` is unbound) and then the
  namedtuple constructor, which demands all ten fields; any exception is
  caught by the enclosing per-cycle handler, so the insert never runs and
  the store is returned unchanged. -/

def cleanerProcessArticle (summ : Option (String → Except Unit String))
    (transl : String → Except Unit String) (db : DB) (a : Article) : DB :=
  if check_article db a then
    let a' := if a.source = "spacenews" then
      { a with description := firstLine a.description } else a
    let summarized : Option String :=
      match summ with
      | none => none
      | some f => some (match f a'.description with
          | .ok s => s
          | .error _ => "")
    let translated : String :=
      match summarized with
      | none => ""
      | some s => match transl s with
          | .ok t => t
          | .error _ => ""
    match extract_tags db a'.description with
    | .error _ => db
    | .ok tagList =>
      match summarized with
      | none => db
      | some s =>
        match mkCleanArticleKw
          [("title", a'.title), ("url", a'.url), ("date", a'.date),
           ("description", a'.description), ("summery", s),
           ("translated_text", translated), ("source", a'.source),
           ("tags", pyJoin ", " tagList)] with
        | .ok ca => insert_cleaned_article ca db
        | .error _ => db
  else db

/-! ## Rule reconciliation job (src/main.py, check_cleaned_article)

The job first calls db.database.get_cleaned_articles, whose SQL names the
table alias `r` in its column list but has no FROM clause; sqlite rejects
such a statement with OperationalError.  Were rows ever returned, each
would be fed to the ten-field `CleanArticle(*row)` with only eight selected
columns (TypeError), and the per-article loop would call the non-existent
`str.low()` (AttributeError).  All three layers are modelled. -/

/-- The SQL text executed by db.database.get_cleaned_articles (whitespace
normalised). -/
def get_cleaned_articles_query : String :=
  "SELECT r.title, r.url, r.date, r.description, r.summery, r.translated_text, r.source, r.tags"

/-- The fragment of sqlite statement validation that this query trips over:
a SELECT whose column list references a table requires a FROM clause. -/
def sqlHasFromClause (q : String) : Bool := pyContains "FROM" q

/-- Positional construction `CleanArticle(*row)`: the namedtuple demands
exactly ten values. -/
def starCleanArticle (vals : List String) : Except PyErr PyCleanArticle :=
  match vals with
  | [t, u, d, de, s1, s2, tr, tr2, so, tg] =>
    .ok ⟨t, u, d, de, s1, s2, tr, tr2, so, tg⟩
  | _ => .error .typeError

/-- db.database.get_cleaned_articles: the malformed query raises
OperationalError before any row is read. -/
def get_cleaned_articles (db : DB) : Except PyErr (List PyCleanArticle) :=
  if sqlHasFromClause get_cleaned_articles_query then
    db.articles_cleaned.mapM fun r =>
      starCleanArticle [r.title, r.url, r.date, r.description, r.summery,
                        r.translated_text, r.source, r.tags]
  else .error .operationalError

/-- The inner tag loop of check_cleaned_article: iterate over the tag list
by index (python visits elements appended during iteration); for a tag not
among the enabled rule patterns the source evaluates
`article.description.low()`, and `str` has no attribute `low`, so the first
such comparison raises AttributeError.  With no rules the inner loop body
never runs. -/
def reconcileTagsLoop (rules : List String) (fuel : Nat) (cur : List String)
    (idx : Nat) : Except PyErr (List String) :=
  match fuel with
  | 0 => .ok cur
  | fuel + 1 =>
    if h : idx < cur.length then
      let i := cur.get ⟨idx, h⟩
      if i ∈ rules then reconcileTagsLoop rules fuel cur (idx + 1)
      else
        match rules with
        | [] => reconcileTagsLoop rules fuel cur (idx + 1)
        | _ :: _ => .error .attributeError
    else .ok cur

/-- main.check_cleaned_article, one run of the reconciliation job. -/
def check_cleaned_article (db : DB) : Except PyErr DB := do
  let arts ← get_cleaned_articles db
  let rules := ((rules_all db).filter fun r => r.enabled).map fun r => r.pattern
  arts.foldlM
    (fun s a => do
      let tags := pySplit ',' a.tags
      let tags' ← reconcileTagsLoop rules (tags.length + 1) tags 0
      pure (update_cleaned_articles (pyJoin " ," tags') a.url s))
    db

/-! # Theorems -/

/-- Strings with equal character lists are equal. -/
theorem string_data_eq {s t : String} (h : s.data = t.data) : s = t :=
  String.ext h

/-- `pyRstripChar` is the identity when the last character is not the
stripped one. -/
theorem pyRstripChar_eq_self (c : Char) (s : String)
    (h : s.data.getLast? ≠ some c) : pyRstripChar c s = s := by
  apply string_data_eq
  show ((s.data.reverse).dropWhile (fun d => d = c)).reverse = s.data
  cases hrev : s.data.reverse with
  | nil =>
    have : s.data = [] := by
      have := congrArg List.reverse hrev
      simpa using this
    simp [this]
  | cons d t =>
    have hd : d ≠ c := by
      intro hdc
      apply h
      rw [← List.head?_reverse, hrev, hdc]
      rfl
    rw [List.dropWhile_cons]
    simp only [hd, decide_eq_true_eq, if_false]
    rw [← hrev, List.reverse_reverse]

/-- Claim C8, counterexample.  The spec asserts
`buildPageUrl(base, 2) == base + "/page/2/"` for every base, but the source
strips trailing slashes from the base first; for the configured source URL
"https://www.space.com/news/" (which ends in a slash) the two differ. -/
theorem C8_counterexample :
    build_page_url "https://www.space.com/news/" 2 =
      "https://www.space.com/news/page/2/" ∧
    build_page_url "https://www.space.com/news/" 2 ≠
      "https://www.space.com/news/" ++ "/page/2/" := by
  constructor
  · decide
  · decide

/-- Claim C8 (amended): page 0 and page 1 return the base unchanged; any
later page returns the base with trailing slashes stripped followed by
"/page/N/", which coincides with `base + "/page/N/"` exactly when the base
does not end in a slash.  The function is pure: each result is recomputed
from the base alone, so no call can mutate it. -/
theorem C8_amended_build_page_url (base : String) (n : Nat) :
    build_page_url base 0 = base ∧
    build_page_url base 1 = base ∧
    (n ≠ 0 → n ≠ 1 →
      build_page_url base n =
        pyRstripChar '/' base ++ "/page/" ++ toString n ++ "/") ∧
    (base.data.getLast? ≠ some '/' →
      pyRstripChar '/' base = base) := by
  refine ⟨by simp [build_page_url], by simp [build_page_url], ?_, ?_⟩
  · intro h0 h1
    simp [build_page_url, h0, h1]
  · exact pyRstripChar_eq_self '/' base

/-- Witness for C8_amended_build_page_url at a base with no trailing slash
and page 5. -/
theorem C8_amended_build_page_url_witness :
    build_page_url "https://x" 5 = "https://x" ++ "/page/5/" := by
  have h := C8_amended_build_page_url "https://x" 5
  have h2 := h.2.2.1 (by decide) (by decide)
  have h3 := h.2.2.2 (by decide)
  rw [h2, h3]
  decide

/-- Claim C10: for a `None`, empty, or whitespace-only input text the
summarization entry point returns the empty string, for every style and
flag combination, without raising. -/
theorem C10_summarize_empty_input (pipe : Option (String → Except Unit String))
    (text : Option String) (style : String) (bullets abstractive : Bool)
    (h : pyStrip (pyOr text) = "") :
    summarize pipe text style bullets abstractive = some "" := by
  unfold summarize
  simp [h]

/-- Witness for C10_summarize_empty_input on a whitespace-only input in the
tech style. -/
theorem C10_summarize_empty_input_witness :
    pyStrip (pyOr (some " \t\n ")) = "" ∧
    summarize none (some " \t\n ") "tech" true true = some "" :=
  ⟨by decide, C10_summarize_empty_input none (some " \t\n ") "tech" true true
    (by decide)⟩

/-- A store that already holds a live-feed row titled "Starship Flight 9". -/
def rocketDupDB : DB :=
  { DB.empty with rocket_launch :=
      [⟨"Starship Flight 9", "[]", "desc", "2025-06-01", "ترجمه", false⟩] }

/-- Claim C1, counterexample.  Inserting a live-feed record whose title is
already present does not leave one row with that title: rocket_launch has
no uniqueness constraint, so insert_rocket_lunch appends unconditionally
and the store ends with two rows with that title. -/
theorem C1_counterexample :
    insert_rocket_lunch
        ⟨"Starship Flight 9", "[]", "other", "2025-06-02", "x"⟩ rocketDupDB ≠
      rocketDupDB ∧
    ((insert_rocket_lunch
        ⟨"Starship Flight 9", "[]", "other", "2025-06-02", "x"⟩
        rocketDupDB).rocket_launch.filter
      (fun r => r.title = "Starship Flight 9")).length = 2 := by
  constructor
  · decide
  · decide

/-- Claim C1 (amended): inserting a raw or an enriched article whose url is
already present raises no error and leaves the store unchanged (hence
exactly one row with that key stays exactly one row); inserting a live-feed
record never raises but always appends a row, so duplicate-title inserts
duplicate the row — live-feed dedup is enforced only by the calling
rocket_lunch_exists pre-check (main.crawl_rocket_lunch). -/
theorem C1_amended_duplicate_insert (a : Article) (ca : PyCleanArticle)
    (n : RocketNews) (db : DB)
    (hraw : ∃ r ∈ db.articles_raw, r.url = a.url)
    (hcl : ∃ r ∈ db.articles_cleaned, r.url = ca.url) :
    insert_raw_article a db = db ∧
    insert_cleaned_article ca db = db ∧
    insert_rocket_lunch n db =
      { db with rocket_launch := db.rocket_launch ++
          [⟨n.title, n.item_list, n.description, n.date, n.translated,
            false⟩] } ∧
    (rocket_lunch_exists n.title db = false →
      ((insert_rocket_lunch n db).rocket_launch.filter
          (fun r => r.title = n.title)).length ≤ 1) := by
  refine ⟨?_, ?_, rfl, ?_⟩
  · unfold insert_raw_article
    have : db.articles_raw.any (fun r => r.url = a.url) = true := by
      rw [List.any_eq_true]
      obtain ⟨r, hr, hu⟩ := hraw
      exact ⟨r, hr, by simp [hu]⟩
    simp [this]
  · unfold insert_cleaned_article
    have : db.articles_cleaned.any (fun r => r.url = ca.url) = true := by
      rw [List.any_eq_true]
      obtain ⟨r, hr, hu⟩ := hcl
      exact ⟨r, hr, by simp [hu]⟩
    simp [this]
  · intro hnex
    have hnone : ∀ r ∈ db.rocket_launch, ¬(r.title = n.title) := by
      simpa [rocket_lunch_exists] using hnex
    unfold insert_rocket_lunch
    simp only [List.filter_append]
    have h1 : db.rocket_launch.filter (fun r => r.title = n.title) = [] := by
      rw [List.filter_eq_nil_iff]
      intro r hr
      simpa using hnone r hr
    rw [h1]
    simp

/-- A store holding one raw article, one enriched article and no live-feed
rows, for exercising duplicate inserts. -/
def dupStoreDB : DB :=
  { DB.empty with
    articles_raw := [⟨"t", "https://a/1", "d", "body", "space"⟩]
    articles_cleaned :=
      [⟨"t", "https://a/1", "d", "body", "s", "tr", "space", "Orbit", false⟩] }

/-- Witness for C1_amended_duplicate_insert: duplicate raw and enriched
inserts leave dupStoreDB unchanged and a fresh-titled live-feed insert
appends. -/
theorem C1_amended_duplicate_insert_witness :
    insert_raw_article ⟨"t2", "https://a/1", "d2", "other", "space"⟩
        dupStoreDB = dupStoreDB ∧
    insert_cleaned_article
        ⟨"t2", "https://a/1", "d2", "o", "s", "ss", "tr", "tt", "space", ""⟩
        dupStoreDB = dupStoreDB :=
  have h := C1_amended_duplicate_insert
    ⟨"t2", "https://a/1", "d2", "other", "space"⟩
    ⟨"t2", "https://a/1", "d2", "o", "s", "ss", "tr", "tt", "space", ""⟩
    ⟨"n", "[]", "d", "dt", "tr"⟩ dupStoreDB
    ⟨⟨"t", "https://a/1", "d", "body", "space"⟩, by decide, rfl⟩
    ⟨⟨"t", "https://a/1", "d", "body", "s", "tr", "space", "Orbit", false⟩,
      by decide, rfl⟩
  ⟨h.1, h.2.1⟩

/-- One write operation can only append to articles_raw, never update or
delete a raw row (helper for C9). -/
theorem raw_append_only_step (op : Op) (db : DB) :
    ∃ t, (op.apply db).articles_raw = db.articles_raw ++ t := by
  cases op with
  | insertRaw a =>
    simp only [Op.apply, insert_raw_article]
    split
    · exact ⟨[], by simp⟩
    · exact ⟨_, rfl⟩
  | insertCleaned a =>
    simp only [Op.apply, insert_cleaned_article]
    split
    · exact ⟨[], by simp⟩
    · exact ⟨[], by simp⟩
  | updateCleanedTags tags url =>
    exact ⟨[], by simp [Op.apply, update_cleaned_articles]⟩
  | markArticleSent url => exact ⟨[], by simp [Op.apply, mark_article_sent]⟩
  | rulesCreate p t e => exact ⟨[], by simp [Op.apply, rules_create]⟩
  | rulesUpdate i p t e => exact ⟨[], by simp [Op.apply, rules_update]⟩
  | rulesDelete i => exact ⟨[], by simp [Op.apply, rules_delete]⟩
  | insertRocket n => exact ⟨[], by simp [Op.apply, insert_rocket_lunch]⟩
  | markRocketSent t => exact ⟨[], by simp [Op.apply, mark_rocket_news_sent]⟩

/-- Claim C9: raw articles are immutable after creation.  Across every
sequence of store write operations, the raw-article table is only ever
appended to: every existing row (all its fields) survives unchanged at its
position. -/
theorem C9_raw_articles_append_only (ops : List Op) (db : DB) :
    ∃ t, (applyOps ops db).articles_raw = db.articles_raw ++ t := by
  induction ops generalizing db with
  | nil => exact ⟨[], by simp [applyOps]⟩
  | cons op rest ih =>
    obtain ⟨t1, h1⟩ := raw_append_only_step op db
    obtain ⟨t2, h2⟩ := ih (op.apply db)
    refine ⟨t1 ++ t2, ?_⟩
    show (applyOps rest (op.apply db)).articles_raw = _
    rw [h2, h1, List.append_assoc]

/-- Rows found at an index survive an append (helper). -/
theorem getElem?_append_of_some {α : Type} {l : List α} (t : List α)
    {i : Nat} {x : α} (h : l[i]? = some x) : (l ++ t)[i]? = some x := by
  have hi : i < l.length := by
    by_contra hc
    rw [List.getElem?_eq_none (Nat.le_of_not_lt hc)] at h
    exact Option.noConfusion h
  rw [List.getElem?_append_left hi]
  exact h

/-- Rows found at an index are mapped in place (helper). -/
theorem getElem?_map_of_some {α : Type} {l : List α} (f : α → α)
    {i : Nat} {x : α} (h : l[i]? = some x) : (l.map f)[i]? = some (f x) := by
  rw [List.getElem?_map, h]
  rfl

/-- One write operation never turns the sent flag of an existing enriched
or live-feed row from true to false (helper for C2): every row keeps its
position and a true flag stays true. -/
theorem sent_monotonic_step (op : Op) (db : DB) :
    (∀ (i : Nat) (r : CleanedRow),
       db.articles_cleaned[i]? = some r → r.sent = true →
       ∃ r' : CleanedRow, (op.apply db).articles_cleaned[i]? = some r' ∧
         r'.sent = true) ∧
    (∀ (i : Nat) (r : RocketRow),
       db.rocket_launch[i]? = some r → r.sent = true →
       ∃ r' : RocketRow, (op.apply db).rocket_launch[i]? = some r' ∧
         r'.sent = true) := by
  cases op with
  | insertRaw a =>
    refine ⟨fun i r h hs => ⟨r, ?_, hs⟩, fun i r h hs => ⟨r, ?_, hs⟩⟩ <;>
      · simp only [Op.apply, insert_raw_article]
        split <;> simpa using h
  | insertCleaned a =>
    constructor
    · intro i r h hs
      refine ⟨r, ?_, hs⟩
      simp only [Op.apply, insert_cleaned_article]
      split
      · exact h
      · exact getElem?_append_of_some _ h
    · intro i r h hs
      refine ⟨r, ?_, hs⟩
      simp only [Op.apply, insert_cleaned_article]
      split <;> simpa using h
  | updateCleanedTags tags url =>
    constructor
    · intro i r h hs
      refine ⟨_, getElem?_map_of_some _ h, ?_⟩
      by_cases hu : r.url = url <;> simp [hu, hs]
    · intro i r h hs
      refine ⟨r, ?_, hs⟩
      simpa [Op.apply, update_cleaned_articles] using h
  | markArticleSent url =>
    constructor
    · intro i r h hs
      refine ⟨_, getElem?_map_of_some _ h, ?_⟩
      by_cases hu : r.url = url <;> simp [hu, hs]
    · intro i r h hs
      refine ⟨r, ?_, hs⟩
      simpa [Op.apply, mark_article_sent] using h
  | rulesCreate p t e =>
    refine ⟨fun i r h hs => ⟨r, ?_, hs⟩, fun i r h hs => ⟨r, ?_, hs⟩⟩ <;>
      simpa [Op.apply, rules_create] using h
  | rulesUpdate j p t e =>
    refine ⟨fun i r h hs => ⟨r, ?_, hs⟩, fun i r h hs => ⟨r, ?_, hs⟩⟩ <;>
      simpa [Op.apply, rules_update] using h
  | rulesDelete j =>
    refine ⟨fun i r h hs => ⟨r, ?_, hs⟩, fun i r h hs => ⟨r, ?_, hs⟩⟩ <;>
      simpa [Op.apply, rules_delete] using h
  | insertRocket n =>
    constructor
    · intro i r h hs
      refine ⟨r, ?_, hs⟩
      simpa [Op.apply, insert_rocket_lunch] using h
    · intro i r h hs
      refine ⟨r, ?_, hs⟩
      simp only [Op.apply, insert_rocket_lunch]
      exact getElem?_append_of_some _ h
  | markRocketSent t =>
    constructor
    · intro i r h hs
      refine ⟨r, ?_, hs⟩
      simpa [Op.apply, mark_rocket_news_sent] using h
    · intro i r h hs
      refine ⟨_, getElem?_map_of_some _ h, ?_⟩
      by_cases hu : r.title = t <;> simp [hu, hs]

/-- Claim C2: across every sequence of store operations (inserts,
mark-sent, tag updates, rule CRUD), the sent/delivered flag of every
enriched-article row and of every live-feed row never transitions from
true to false: a delivered row stays delivered at its position. -/
theorem C2_sent_monotonic (ops : List Op) (db : DB) :
    (∀ (i : Nat) (r : CleanedRow),
       db.articles_cleaned[i]? = some r → r.sent = true →
       ∃ r' : CleanedRow, (applyOps ops db).articles_cleaned[i]? = some r' ∧
         r'.sent = true) ∧
    (∀ (i : Nat) (r : RocketRow),
       db.rocket_launch[i]? = some r → r.sent = true →
       ∃ r' : RocketRow, (applyOps ops db).rocket_launch[i]? = some r' ∧
         r'.sent = true) := by
  induction ops generalizing db with
  | nil => exact ⟨fun i r h hs => ⟨r, h, hs⟩, fun i r h hs => ⟨r, h, hs⟩⟩
  | cons op rest ih =>
    constructor
    · intro i r h hs
      obtain ⟨r1, h1, hs1⟩ := (sent_monotonic_step op db).1 i r h hs
      exact (ih (op.apply db)).1 i r1 h1 hs1
    · intro i r h hs
      obtain ⟨r1, h1, hs1⟩ := (sent_monotonic_step op db).2 i r h hs
      exact (ih (op.apply db)).2 i r1 h1 hs1

/-- A store with one already-delivered enriched row and one delivered
live-feed row (for the C2 witness). -/
def sentWitnessDB : DB :=
  { DB.empty with
    articles_cleaned :=
      [⟨"t", "https://a/1", "d", "de", "s", "tr", "src", "Orbit", true⟩]
    rocket_launch := [⟨"rt", "[]", "d", "dt", "tr", true⟩] }

/-- The delivered enriched row of sentWitnessDB. -/
def sentWitnessRow : CleanedRow :=
  ⟨"t", "https://a/1", "d", "de", "s", "tr", "src", "Orbit", true⟩

/-- A mixed operation sequence for the C2 witness. -/
def sentWitnessOps : List Op :=
  [.markArticleSent "https://a/1", .updateCleanedTags "x" "https://a/1",
   .rulesCreate "orbit" "Orbit" true, .rulesDelete 1,
   .insertRocket ⟨"n", "[]", "d", "dt", "tr"⟩,
   .markRocketSent "rt", .insertRaw ⟨"t2", "u2", "d", "de", "s"⟩]

/-- Witness for C2_sent_monotonic on sentWitnessDB and sentWitnessOps. -/
theorem C2_sent_monotonic_witness :
    (sentWitnessDB.articles_cleaned[0]? = some sentWitnessRow ∧
      sentWitnessRow.sent = true) ∧
    (∃ r' : CleanedRow,
      (applyOps sentWitnessOps sentWitnessDB).articles_cleaned[0]? =
        some r' ∧ r'.sent = true) :=
  ⟨⟨by decide, by decide⟩,
    (C2_sent_monotonic sentWitnessOps sentWitnessDB).1 0 sentWitnessRow
      (by decide) (by decide)⟩

/-- Membership in the keyword pool accumulated by extract_tags (helper for
the C5 analysis). -/
theorem mem_foldl_addPattern (l : List RuleRow) (acc : List String)
    (x : String) :
    x ∈ l.foldl
      (fun acc r =>
        if ¬r.enabled ∨ r.pattern = "" then acc
        else if r.pattern ∈ acc then acc
        else acc ++ [r.pattern]) acc ↔
    x ∈ acc ∨ ∃ r ∈ l, r.enabled = true ∧ r.pattern ≠ "" ∧ r.pattern = x := by
  induction l generalizing acc with
  | nil => simp
  | cons r t ih =>
    simp only [List.foldl_cons]
    by_cases h1 : ¬r.enabled ∨ r.pattern = ""
    · rw [if_pos h1, ih]
      constructor
      · rintro (hx | ⟨rr, hm, hp⟩)
        · exact Or.inl hx
        · exact Or.inr ⟨rr, List.mem_cons_of_mem _ hm, hp⟩
      · rintro (hx | ⟨rr, hm, hp⟩)
        · exact Or.inl hx
        · rcases List.mem_cons.mp hm with rfl | hm2
          · rcases h1 with h1 | h1
            · exact absurd hp.1 (by simpa using h1)
            · exact absurd h1 hp.2.1
          · exact Or.inr ⟨rr, hm2, hp⟩
    · push_neg at h1
      obtain ⟨hen, hne⟩ := h1
      rw [if_neg (by simp [hen, hne])]
      by_cases h2 : r.pattern ∈ acc
      · rw [if_pos h2, ih]
        constructor
        · rintro (hx | ⟨rr, hm, hp⟩)
          · exact Or.inl hx
          · exact Or.inr ⟨rr, List.mem_cons_of_mem _ hm, hp⟩
        · rintro (hx | ⟨rr, hm, hp⟩)
          · exact Or.inl hx
          · rcases List.mem_cons.mp hm with rfl | hm2
            · exact Or.inl (hp.2.2 ▸ h2)
            · exact Or.inr ⟨rr, hm2, hp⟩
      · rw [if_neg h2, ih]
        constructor
        · rintro (hx | ⟨rr, hm, hp⟩)
          · rcases List.mem_append.mp hx with hx | hx
            · exact Or.inl hx
            · have hxp : x = r.pattern := by simpa using hx
              exact Or.inr ⟨r, List.mem_cons_self r t,
                by simpa using hen, hne, hxp.symm⟩
          · exact Or.inr ⟨rr, List.mem_cons_of_mem _ hm, hp⟩
        · rintro (hx | ⟨rr, hm, hp⟩)
          · exact Or.inl (List.mem_append.mpr (Or.inl hx))
          · rcases List.mem_cons.mp hm with rfl | hm2
            · exact Or.inl (List.mem_append.mpr (Or.inr (by simp [hp.2.2])))
            · exact Or.inr ⟨rr, hm2, hp⟩

/-- Claim C5: on an empty input text, extract_tags executes `return tags`
before the local `tags` is ever assigned and raises UnboundLocalError (the
documented and specified behaviour is to return the empty tag list). -/
theorem C5_extract_tags_empty_text_raises (db : DB) :
    extract_tags db "" = .error .unboundLocalError := rfl

/-- On every non-empty text, extract_tags does return exactly the members
of KEYWORDS united with the enabled non-empty rule patterns that occur in
the text as case-insensitive substrings (the part of claim C5 that the
code does satisfy). -/
theorem extract_tags_exact_on_nonempty (db : DB) (text : String)
    (h : text ≠ "") :
    ∃ res, extract_tags db text = .ok res ∧
      ∀ kw, kw ∈ res ↔
        ((kw ∈ KEYWORDS ∨ ∃ r ∈ db.match_rules,
            r.enabled = true ∧ r.pattern ≠ "" ∧ r.pattern = kw) ∧
         pyContains (pyLower kw) (pyLower text) = true) := by
  refine ⟨(etKeywords db).filter
    (fun kw => pyContains (pyLower kw) (pyLower text)), ?_, ?_⟩
  · simp [extract_tags, h]
  intro kw
  rw [List.mem_filter]
  unfold etKeywords rules_all
  rw [mem_foldl_addPattern]
  simp [List.mem_reverse]

/-- Witness for extract_tags_exact_on_nonempty on a concrete store and
text. -/
theorem extract_tags_exact_on_nonempty_witness :
    ("Spy satellite in retrograde orbit" ≠ "") ∧
    (∃ res, extract_tags DB.empty "Spy satellite in retrograde orbit" =
        .ok res ∧
      ∀ kw, kw ∈ res ↔
        ((kw ∈ KEYWORDS ∨ ∃ r ∈ DB.empty.match_rules,
            r.enabled = true ∧ r.pattern ≠ "" ∧ r.pattern = kw) ∧
         pyContains (pyLower kw)
           (pyLower "Spy satellite in retrograde orbit") = true)) :=
  ⟨by decide, extract_tags_exact_on_nonempty DB.empty
    "Spy satellite in retrograde orbit" (by decide)⟩

/-- The cleaner passes only 8 of the 10 required CleanArticle fields
(second_summery and second_translated_text are missing), so the namedtuple
constructor raises TypeError for every field values (helper for C3). -/
theorem mkCleanArticle_eight_fields (v1 v2 v3 v4 v5 v6 v7 v8 : String) :
    mkCleanArticleKw
      [("title", v1), ("url", v2), ("date", v3), ("description", v4),
       ("summery", v5), ("translated_text", v6), ("source", v7),
       ("tags", v8)] = .error .typeError := rfl

/-- Claim C3: even for an eligible raw article the enrichment loop never
commits an enriched row, whatever the summarizer (present, failing, or
absent) and the translator do.  Constructing the CleanArticle namedtuple
raises (TypeError from the two missing fields; additionally NameError when
no summarizer bound summarized_text), the per-cycle handler swallows the
exception, and the store is left unchanged — contradicting the specified
always-commit-once-eligible behaviour. -/
theorem C3_enrichment_never_commits
    (summ : Option (String → Except Unit String))
    (transl : String → Except Unit String) (db : DB) (a : Article)
    (h : check_article db a = true) :
    cleanerProcessArticle summ transl db a = db := by
  unfold cleanerProcessArticle
  rw [if_pos h]
  cases summ with
  | none =>
    cases hE : extract_tags db (if a.source = "spacenews" then
        { a with description := firstLine a.description }
      else a).description with
    | error e => simp [hE]
    | ok tagList => simp [hE]
  | some f =>
    cases hE : extract_tags db (if a.source = "spacenews" then
        { a with description := firstLine a.description }
      else a).description with
    | error e => simp [hE]
    | ok tagList => simp [hE, mkCleanArticle_eight_fields]

/-- Witness for C3_enrichment_never_commits: a concrete eligible article
(description contains the keyword "Orbit"), a succeeding summarizer and a
succeeding translator still produce no enriched row. -/
theorem C3_enrichment_never_commits_witness :
    check_article DB.empty ⟨"t", "u", "d", "An Orbit story", "space"⟩ =
      true ∧
    cleanerProcessArticle (some fun s => .ok s) (fun s => .ok s) DB.empty
      ⟨"t", "u", "d", "An Orbit story", "space"⟩ = DB.empty :=
  ⟨by decide,
    C3_enrichment_never_commits (some fun s => .ok s) (fun s => .ok s)
      DB.empty ⟨"t", "u", "d", "An Orbit story", "space"⟩ (by decide)⟩

/-- Claim C7: every run of the rule reconciliation job raises.  The SQL of
get_cleaned_articles has no FROM clause, so sqlite rejects it with
OperationalError before a single row is read or written; the job can never
complete one run, let alone be idempotent. -/
theorem C7_reconciliation_job_raises (db : DB) :
    check_cleaned_article db = .error .operationalError := rfl

/-- Claim C6: one pass of the article delivery worker (a) skips rows with
no translated body or no tag string — no post, no mark; (b) skips rows
whose rendered tag string is exactly the suppressed "#orbit" or "#launch"
(case-insensitively) without marking them; (c) posts every other row and
marks it sent only after the post, and only when the post returned; and
(d) when no post raises, the pass processes exactly the rows in order. -/
theorem C6_sender_row_filtering (postOk : PyCleanArticle → Bool)
    (a : PyCleanArticle) (rows : List PyCleanArticle) :
    ((a.translated_text = "" ∨ a.tags = "") →
      senderRowEvents postOk a = []) ∧
    (senderBlocked a.tags = true → senderRowEvents postOk a = []) ∧
    (¬(a.translated_text = "" ∨ a.tags = "") →
      senderBlocked a.tags = false →
      senderRowEvents postOk a =
        .post a :: (if postOk a then [.mark a.url] else [])) ∧
    ((∀ x ∈ rows, senderRowAborts postOk x = false) →
      senderEvents postOk rows = rows.flatMap (senderRowEvents postOk)) := by
  refine ⟨?_, ?_, ?_, ?_⟩
  · intro h
    simp [senderRowEvents, h]
  · intro h
    unfold senderRowEvents
    by_cases h1 : a.translated_text = "" ∨ a.tags = ""
    · rw [if_pos h1]
    · rw [if_neg h1, if_pos h]
  · intro h1 h2
    unfold senderRowEvents
    rw [if_neg h1, if_neg (by simp [h2])]
    by_cases hp : postOk a <;> simp [hp]
  · intro hall
    induction rows with
    | nil => simp [senderEvents]
    | cons x rest ih =>
      unfold senderEvents
      rw [hall x (List.mem_cons_self x rest),
        ih (fun y hy => hall y (List.mem_cons_of_mem x hy))]
      simp [List.flatMap_cons]

/-- Witness for C6_sender_row_filtering: a pass over one suppressed row and
one ordinary row with a succeeding post. -/
theorem C6_sender_row_filtering_witness :
    senderEvents (fun _ => true)
        [⟨"a", "u1", "", "", "", "", "tx", "", "", "Orbit"⟩,
         ⟨"b", "u2", "", "", "", "", "tx", "", "", "Orbit, Israel"⟩] =
      [.post ⟨"b", "u2", "", "", "", "", "tx", "", "", "Orbit, Israel"⟩,
       .mark "u2"] := by
  have h := C6_sender_row_filtering (fun _ => true)
    (⟨"a", "u1", "", "", "", "", "tx", "", "", "Orbit"⟩ : PyCleanArticle)
    [⟨"a", "u1", "", "", "", "", "tx", "", "", "Orbit"⟩,
     ⟨"b", "u2", "", "", "", "", "tx", "", "", "Orbit, Israel"⟩]
  rw [h.2.2.2 (by decide)]
  decide

/-- A join starts with its first element (helper for C4). -/
theorem pyJoin_starts_with_head (sep x : String) (l : List String) :
    ∃ rest, pyJoin sep (x :: l) = x ++ rest := by
  cases l with
  | nil => exact ⟨"", by simp [pyJoin]⟩
  | cons y t =>
    exact ⟨sep ++ pyJoin sep (y :: t), by simp [pyJoin, String.append_assoc]⟩

set_option maxHeartbeats 1600000 in
/-- The executive formatter output is the dot-normalised join of the
non-empty parts, whose head is always the fixed purpose sentence (helper
for C4; `rfl` against the definition). -/
theorem formatExec_shape (text : String) :
    ∃ L : List String, formatExec text false =
      pyJoin " " (((purposeSentence :: L).filter fun p => p ≠ "").map
        fun p => pyRstripChar '.' p ++ ".") := by
  unfold formatExec
  exact ⟨_, rfl⟩

set_option maxHeartbeats 1600000 in
/-- Dot-normalisation fixes the purpose sentence (helper for C4). -/
theorem purpose_term_fixed :
    pyRstripChar '.' purposeSentence ++ "." = purposeSentence := by decide

/-- Every executive summary starts with the purpose sentence (helper for
C4). -/
theorem formatExec_starts_with_purpose (text : String) :
    ∃ rest, formatExec text false = purposeSentence ++ rest := by
  obtain ⟨L, hL⟩ := formatExec_shape text
  rw [hL, List.filter_cons_of_pos (by decide), List.map_cons,
    purpose_term_fixed]
  exact pyJoin_starts_with_head " " purposeSentence _

set_option maxHeartbeats 4000000 in
/-- Claim C4, counterexample.  The condensation entry point has no
short-text verbatim path: for the short input "Hello." the default
(executive) style returns the fixed purpose sentence, not the input
unchanged. -/
theorem C4_counterexample :
    summarize none (some "Hello.") "exec" false false =
      some purposeSentence ∧
    purposeSentence ≠ "Hello." := by
  constructor
  · decide
  · decide

/-- Claim C4 (amended): summarize returns a short input changed, not
verbatim — for every text whose stripped form is non-empty, the default
executive style returns a summary that starts with the fixed sentence
"Purpose: validate astronaut escape systems so regular ISS crew rotations
can begin." and is therefore non-empty, and this holds however the
underlying HF summarizer pipeline behaves (absent, or failing on every
invocation, covering the fallback path of the claim). -/
theorem C4_amended_exec_condensation
    (pipe : Option (String → Except Unit String)) (text : String)
    (abstr : Bool)
    (hne : pyStrip text ≠ "")
    (hfail : abstr = true → ∀ f, pipe = some f → ∀ s, f s = .error ()) :
    ∃ rest, summarize pipe (some text) "exec" false abstr =
      some (purposeSentence ++ rest) ∧ purposeSentence ++ rest ≠ "" := by
  have hstep : summarize pipe (some text) "exec" false abstr =
      some (if abstr then
        abstractivePolish pipe (formatExec (pyStrip text) false)
      else formatExec (pyStrip text) false) := by
    unfold summarize
    rw [show pyOr (some text) = text from rfl]
    rw [if_neg hne, if_neg (by decide : ¬(("exec" : String) = "tech"))]
  obtain ⟨rest, hrest⟩ := formatExec_starts_with_purpose (pyStrip text)
  refine ⟨rest, ?_, ?_⟩
  · rw [hstep]
    revert hrest
    generalize formatExec (pyStrip text) false = F
    intro hrest
    congr 1
    cases abstr with
    | false => exact hrest
    | true =>
      show abstractivePolish pipe F = _
      cases hp : pipe with
      | none => exact hrest
      | some f =>
        have h1 : abstractivePolish (some f) F = F := by
          show (match f F with
            | Except.ok out => collapseWs2 (pyStrip out)
            | Except.error _ => F) = F
          rw [hfail rfl f hp F]
        rw [h1]
        exact hrest
  · intro hemp
    have h1 := congrArg String.length hemp
    rw [String.length_append] at h1
    have h2 : purposeSentence.length = 83 := by decide
    simp [h2] at h1

/-- Witness for C4_amended_exec_condensation on a concrete short text with
no pipeline. -/
theorem C4_amended_exec_condensation_witness :
    pyStrip "Hello there." ≠ "" ∧
    ∃ rest, summarize none (some "Hello there.") "exec" false false =
      some (purposeSentence ++ rest) ∧ purposeSentence ++ rest ≠ "" :=
  ⟨by decide, C4_amended_exec_condensation none "Hello there." false
    (by decide) (fun h => absurd h (by decide))⟩
